import Mathlib

/-!
Shallow embedding of the abstract `Maker` base class (electron-forge
maker-base, `src/Maker.ts`) and proofs about its specified behaviour.

External collaborators are modelled as explicit parameters:
  * the search-path lookup `which.sync(binary, { nothrow: true }) !== null`
    becomes a total function `resolves : String → Bool`;
  * the module loader used by `isInstalled` becomes a function
    `loadModule : String → Except String Unit` (an `error` models a thrown
    load-time fault of any kind);
  * the filesystem collaborator (`fs.pathExists`, `fs.remove`, `fs.mkdirs`)
    becomes an explicit finite-state model `FS` with paths as segment lists.

JavaScript runtime values stored in `configOrConfigFetcher` are modelled by
`JSValue`: the code discriminates them at runtime with
`typeof this.configOrConfigFetcher === "function"`, which corresponds to the
`JSValue.func` constructor; every non-function value is an opaque `prim`.
A factory may throw, so its model returns `Except`.
-/

namespace Forge

abbrev ForgePlatform := String

abbrev ForgeArch := String

/-- A JavaScript runtime value held in the `configOrConfigFetcher` field:
either a non-function value (opaque payload) or a function value
`(arch) => C`, which may throw (modelled as `Except`). -/
inductive JSValue where
  | prim (payload : String) : JSValue
  | func (f : ForgeArch → Except String JSValue) : JSValue

/-- The `MakerOptions` record passed to `make`. -/
structure MakerOptions where
  dir : String
  makeDir : String
  appName : String
  targetPlatform : ForgePlatform
  targetArch : ForgeArch
  forgeConfig : String
  packageJSON : String

/-- The error taxonomy of the base class: the two `throw new Error` sites in
the source (the contract checks in `isSupportedOnCurrentPlatform` / `make`,
and the missing-binaries check in `ensureExternalBinariesExist`), plus
`other` for errors thrown by an override of a concrete variant. -/
inductive MakerError where
  | contractViolation (msg : String)
  | missingDependency (msg : String)
  | other (msg : String)

/-- A maker instance.  `isSupportedImpl` / `makeImpl` model whether the
concrete variant overrode the corresponding base method (`some` = the
override, found before the base method on the prototype chain;
`none` = not overridden, dispatch reaches the base method whose identity
check `this.m === Maker.prototype.m` then succeeds).  Field defaults mirror
the source: `requiredExternalBinaries = []`, the constructor default
`configOrConfigFetcher = {} as C`, and the optional `platformsToMakeOn`. -/
structure Maker where
  name : String
  defaultPlatforms : List ForgePlatform
  requiredExternalBinaries : List String := []
  configOrConfigFetcher : JSValue := .prim "emptyConfig"
  platformsToMakeOn : Option (List ForgePlatform) := none
  config : Option JSValue := none
  isSupportedImpl : Option (Unit → Bool) := none
  makeImpl : Option (MakerOptions → Except String (List String)) := none

/-- The `platforms` getter: `if (this.platformsToMakeOn) return
this.platformsToMakeOn; return this.defaultPlatforms;` — a JavaScript array
is always truthy (even `[]`), so the test is exactly "was an override array
supplied", i.e. `Option.isSome`. -/
def Maker.platforms (m : Maker) : List ForgePlatform :=
  match m.platformsToMakeOn with
  | some ps => ps
  | none => m.defaultPlatforms

/-- The `prepareConfig(targetArch)` method: if
`typeof this.configOrConfigFetcher === "function"` the stored value is
invoked with the target architecture (errors it throws propagate), else the
stored value itself becomes the config.  The returned maker is the
post-state of the instance. -/
def Maker.prepareConfig (m : Maker) (targetArch : ForgeArch) : Except String Maker :=
  match m.configOrConfigFetcher with
  | .func f =>
    match f targetArch with
    | .ok v => .ok { m with config := some v }
    | .error e => .error e
  | .prim s => .ok { m with config := some (.prim s) }

/-- Calling `isSupportedOnCurrentPlatform()` on the instance: an override
runs (returning its boolean); otherwise the base method runs, its identity
check `this.isSupportedOnCurrentPlatform ===
Maker.prototype.isSupportedOnCurrentPlatform` succeeds, and it throws
`Maker [name] did not implement the isSupportedOnCurrentPlatform method`. -/
def Maker.callIsSupported (m : Maker) : Except MakerError Bool :=
  match m.isSupportedImpl with
  | some f => .ok (f ())
  | none =>
    .error (.contractViolation
      ("Maker " ++ m.name ++ " did not implement the isSupportedOnCurrentPlatform method"))

/-- Calling `make(opts)` on the instance: an override runs (its own errors
are `other`, not contract violations); otherwise the base method runs, its
identity check `this.make === Maker.prototype.make` succeeds, and it throws
`Maker [name] did not implement the make method`. -/
def Maker.callMake (m : Maker) (opts : MakerOptions) : Except MakerError (List String) :=
  match m.makeImpl with
  | some f => (f opts).mapError MakerError.other
  | none =>
    .error (.contractViolation ("Maker " ++ m.name ++ " did not implement the make method"))

/-- `externalBinariesExist()`: every name in `requiredExternalBinaries`
resolves on the search path; `which.sync(binary, { nothrow: true }) !== null`
is the total lookup `resolves`. -/
def Maker.externalBinariesExist (m : Maker) (resolves : String → Bool) : Bool :=
  m.requiredExternalBinaries.all resolves

/-- `ensureExternalBinariesExist()`: throws when `externalBinariesExist()` is
false, with a message joining every configured binary name with `, `. -/
def Maker.ensureExternalBinariesExist (m : Maker) (resolves : String → Bool) :
    Except MakerError Unit :=
  if !(m.externalBinariesExist resolves) then
    .error (.missingDependency
      ("Cannot make for " ++ m.name ++
        ", the following external binaries need to be installed: " ++
        String.intercalate ", " m.requiredExternalBinaries))
  else .ok ()

/-- `isInstalled(module)`: `try { require(module); return true } catch
{ return false }` — the module loader is the collaborator `loadModule`, any
thrown fault is an `error` value, and the catch-all makes the result total. -/
def isInstalled (loadModule : String → Except String Unit) (module : String) : Bool :=
  match loadModule module with
  | .ok _ => true
  | .error _ => false

/-- Whether a character is matched by `.` in a JavaScript regular expression
without the `s` flag: everything except the four ECMAScript line
terminators. -/
def jsDotMatch (c : Char) : Bool :=
  !(c = '\n' || c = '\r' || c = '\u2028' || c = '\u2029')

/-- The effect of the replace call with the regex dash-dot-star on the character list: at
the first `-`, the regex consumes the dash and then every following
character up to (not including) the first line terminator or the end of the
string, and the match is replaced by the empty string; without a `g` flag
only this first match is replaced. -/
def replaceFirstDashRest : List Char → List Char
  | [] => []
  | c :: rest => if c = '-' then rest.dropWhile jsDotMatch else c :: replaceFirstDashRest rest

/-- `normalizeWindowsVersion(version)`: strip the regex match dash-dot-star
(replaced by the empty string) and append the literal `.0`. -/
def normalizeWindowsVersion (version : String) : String :=
  String.mk (replaceFirstDashRest version.data) ++ ".0"

/-- The reading the claim gives of `normalizeWindowsVersion`, for comparison:
strip everything from the first `-` to the END OF THE STRING, then append
`.0`. -/
def claimNormalizeWindowsVersion (version : String) : String :=
  String.mk (version.data.takeWhile (fun c => !(c = '-'))) ++ ".0"

/-- A filesystem path, as its list of segments. -/
abbrev FsPath := List String

/-- The state of the filesystem collaborator: the set of existing directories and
the set of existing files (as lists, membership is what matters). -/
structure FS where
  dirs : List FsPath
  files : List FsPath

/-- `fs.pathExists(p)`: the path exists as a directory or as a file. -/
def FS.pathExists (fs : FS) (p : FsPath) : Bool :=
  decide (p ∈ fs.dirs ∨ p ∈ fs.files)

/-- `fs.remove(p)`: recursive removal — every path equal to `p` or below it
disappears. -/
def FS.remove (fs : FS) (p : FsPath) : FS :=
  { dirs := fs.dirs.filter (fun q => !(p.isPrefixOf q)),
    files := fs.files.filter (fun q => !(p.isPrefixOf q)) }

/-- `fs.mkdirs(p)`: create `p` and every missing parent segment, i.e. every
prefix of `p` becomes an existing directory. -/
def FS.mkdirs (fs : FS) (p : FsPath) : FS :=
  { fs with dirs := p.inits ++ fs.dirs }

/-- Well-formedness of a filesystem state, true of every real filesystem:
every proper prefix of an existing path is an existing directory. -/
def FS.wf (fs : FS) : Bool :=
  decide (∀ p ∈ fs.dirs ++ fs.files, ∀ q ∈ p.inits, q = p ∨ q ∈ fs.dirs)

/-- `ensureDirectory(dir)`: if the path exists it is recursively removed,
then the directory (and missing parents) is created. -/
def ensureDirectory (fs : FS) (dir : FsPath) : FS :=
  let fs1 := if fs.pathExists dir then fs.remove dir else fs
  fs1.mkdirs dir

/-- `ensureFile(file)`: if the path exists it is removed, then the parent
directory chain (`path.dirname(file)`, the segments without the last one) is
created; the file itself is never created. -/
def ensureFile (fs : FS) (file : FsPath) : FS :=
  let fs1 := if fs.pathExists file then fs.remove file else fs
  fs1.mkdirs file.dropLast

/-- A concrete maker constructed with an explicit EMPTY platform override. -/
def makerEmptyOverride : Maker :=
  { name := "zip", defaultPlatforms := ["linux"], platformsToMakeOn := some [] }

/-- A concrete maker constructed with no platform override. -/
def makerNoOverride : Maker :=
  { name := "dmg", defaultPlatforms := ["darwin"] }

/-- A concrete maker constructed with a static (non-function) config value. -/
def makerStatic : Maker :=
  { name := "deb", defaultPlatforms := ["linux"], configOrConfigFetcher := .prim "staticConfig" }

/-- A concrete config factory: returns a value depending on the target
architecture. -/
def exampleFetcher : ForgeArch → Except String JSValue :=
  fun a => .ok (.prim a)

/-- A concrete maker whose supplied config value is function-typed. -/
def makerFactory : Maker :=
  { name := "squirrel", defaultPlatforms := ["win32"],
    configOrConfigFetcher := .func exampleFetcher }

/-- A concrete maker that declares no required external binaries (the
default). -/
def makerNoBins : Maker :=
  { name := "wix", defaultPlatforms := ["win32"] }

/-- A concrete maker requiring two external binaries. -/
def makerTools : Maker :=
  { name := "flatpak", defaultPlatforms := ["linux"],
    requiredExternalBinaries := ["toolA", "toolB"] }

/-- A search path on which only `toolA` resolves. -/
def resolvesOnlyToolA : String → Bool :=
  fun b => b == "toolA"

/-- A concrete `MakerOptions` record. -/
def optsExample : MakerOptions :=
  { dir := "out/app", makeDir := "out/make", appName := "app",
    targetPlatform := "linux", targetArch := "x64",
    forgeConfig := "cfg", packageJSON := "pkg" }

/-- A concrete well-formed filesystem state with a non-empty directory
`a/b` (it contains the file `a/b/c`). -/
def fsExample : FS :=
  { dirs := [[], ["a"], ["a", "b"]], files := [["a", "b", "c"]] }

end Forge

namespace Forge

/-! ## Claim C2 — the `platforms` accessor -/

/-- C2, counterexample: the claim says that when the supplied override
sequence is empty, `platforms` returns `defaultPlatforms`.  On the code a
JavaScript array is truthy even when empty, so a maker constructed with the
empty override `[]` gets `platforms = []`, not its `defaultPlatforms`. -/
theorem platforms_empty_override_counterexample :
    makerEmptyOverride.platformsToMakeOn = some []
      ∧ makerEmptyOverride.platforms = []
      ∧ makerEmptyOverride.platforms ≠ makerEmptyOverride.defaultPlatforms := by
  refine ⟨rfl, rfl, ?_⟩
  decide

/-- C2, amended: `platforms` returns the override sequence exactly when an
override sequence was supplied at construction — including an empty one,
since a JavaScript array is always truthy — and returns `defaultPlatforms`
exactly when no override was supplied; it never merges the two. -/
theorem platforms_override_iff_supplied (m m' : Maker) (ps : List ForgePlatform)
    (h : m.platformsToMakeOn = some ps) (h' : m'.platformsToMakeOn = none) :
    m.platforms = ps ∧ m'.platforms = m'.defaultPlatforms := by
  constructor
  · simp [Maker.platforms, h]
  · simp [Maker.platforms, h']

/-- C2, witness for the amended theorem at concrete makers. -/
theorem platforms_override_iff_supplied_witness :
    makerEmptyOverride.platforms = []
      ∧ makerNoOverride.platforms = makerNoOverride.defaultPlatforms :=
  platforms_override_iff_supplied makerEmptyOverride makerNoOverride [] rfl rfl

/-! ## Claim C4 — `prepareConfig` resolution -/

/-- C4: `prepareConfig(arch)` updates only the `config` field (the result is
the input maker with `config` replaced): a function-typed config source is
invoked at the target architecture and its result stored, with any error it
raises propagated unmodified; a non-function source is stored unchanged,
the same value for every architecture. -/
theorem prepareConfig_resolves_config (m : Maker) (targetArch : ForgeArch) :
    (∀ s, m.configOrConfigFetcher = .prim s →
      m.prepareConfig targetArch = .ok { m with config := some (.prim s) })
    ∧ (∀ f, m.configOrConfigFetcher = .func f →
      (∀ v, f targetArch = .ok v →
        m.prepareConfig targetArch = .ok { m with config := some v })
      ∧ (∀ e, f targetArch = .error e → m.prepareConfig targetArch = .error e)) := by
  refine ⟨fun s hs => ?_, fun f hf => ⟨fun v hv => ?_, fun e he => ?_⟩⟩ <;>
    simp [Maker.prepareConfig, *]

/-- C4, witness: a static config source is stored unchanged, only `config`
differs in the result. -/
theorem prepareConfig_resolves_config_witness :
    makerStatic.prepareConfig "x64" =
      .ok { makerStatic with config := some (.prim "staticConfig") } :=
  (prepareConfig_resolves_config makerStatic "x64").1 "staticConfig" rfl

/-! ## Claim C10 — discrimination by runtime function-typed-ness -/

/-- C10: the Static versus Factory discrimination in `prepareConfig` is the
runtime check of whether the stored value is function-typed (the maker
carries no tag): whenever the supplied config value is itself a function,
`prepareConfig(arch)` invokes it with the architecture and stores the
result, never the function value unchanged. -/
theorem prepareConfig_invokes_function_typed_config (m : Maker) (targetArch : ForgeArch)
    (f : ForgeArch → Except String JSValue) (h : m.configOrConfigFetcher = .func f)
    (v : JSValue) (hv : f targetArch = .ok v) :
    m.prepareConfig targetArch = .ok { m with config := some v } := by
  simp [Maker.prepareConfig, h, hv]

/-- C10, witness: a maker holding a function-typed config value gets the
value of that function at the target architecture stored in `config`. -/
theorem prepareConfig_invokes_function_typed_config_witness :
    makerFactory.prepareConfig "arm64" =
      .ok { makerFactory with config := some (.prim "arm64") } :=
  prepareConfig_invokes_function_typed_config makerFactory "arm64"
    exampleFetcher rfl (.prim "arm64") rfl

/-! ## Claim C8 — `isInstalled` -/

/-- C8: `isInstalled` is total (the catch-all makes it never raise), returns
true exactly when the module loader succeeds, and false exactly when the
loader fails with ANY fault, none distinguished from the others. -/
theorem isInstalled_total_spec (loadModule : String → Except String Unit) (module : String) :
    (isInstalled loadModule module = true ↔ loadModule module = .ok ())
    ∧ (isInstalled loadModule module = false ↔ ∃ e, loadModule module = .error e) := by
  cases h : loadModule module with
  | ok u => cases u; simp [isInstalled, h]
  | error e => simp [isInstalled, h]

/-! ## Claim C9 — empty `requiredExternalBinaries` -/

/-- C9: a maker declaring no required external binaries (the default) has
`externalBinariesExist` true and `ensureExternalBinariesExist` succeeding,
for every state of the system search path. -/
theorem no_required_binaries_never_fails (m : Maker) (resolves : String → Bool)
    (h : m.requiredExternalBinaries = []) :
    m.externalBinariesExist resolves = true
      ∧ m.ensureExternalBinariesExist resolves = .ok () := by
  constructor
  · simp [Maker.externalBinariesExist, h]
  · simp [Maker.ensureExternalBinariesExist, Maker.externalBinariesExist, h]

/-- C9, witness: at a concrete maker with no required binaries and a search
path resolving nothing at all. -/
theorem no_required_binaries_never_fails_witness :
    makerNoBins.externalBinariesExist (fun _ => false) = true
      ∧ makerNoBins.ensureExternalBinariesExist (fun _ => false) = .ok () :=
  no_required_binaries_never_fails makerNoBins (fun _ => false) rfl

end Forge

namespace Forge

/-! ## Claim C3 — external binary validation -/

/-- C3: `externalBinariesExist` is true exactly when every required binary
resolves (the lookup is non-throwing, modelled total); and
`ensureExternalBinariesExist` fails exactly when some required binary does
not resolve, with a MissingDependency message that enumerates EVERY
configured binary name in declaration order joined by the fixed separator
`, `, not only the missing ones. -/
theorem binary_validation_spec (m : Maker) (resolves : String → Bool) :
    (m.externalBinariesExist resolves = true ↔
      ∀ b ∈ m.requiredExternalBinaries, resolves b = true)
    ∧ ((∃ e, m.ensureExternalBinariesExist resolves = .error e) ↔
      ∃ b ∈ m.requiredExternalBinaries, resolves b = false)
    ∧ (m.externalBinariesExist resolves = false →
      m.ensureExternalBinariesExist resolves = .error (.missingDependency
        ("Cannot make for " ++ m.name ++
          ", the following external binaries need to be installed: " ++
          String.intercalate ", " m.requiredExternalBinaries)))
    ∧ (m.externalBinariesExist resolves = true →
      m.ensureExternalBinariesExist resolves = .ok ()) := by
  refine ⟨by simp [Maker.externalBinariesExist, List.all_eq_true], ?_,
    fun hx => by simp [Maker.ensureExternalBinariesExist, hx],
    fun hx => by simp [Maker.ensureExternalBinariesExist, hx]⟩
  have hfalse : m.externalBinariesExist resolves = false ↔
      ∃ b ∈ m.requiredExternalBinaries, resolves b = false := by
    simp [Maker.externalBinariesExist, List.all_eq_false]
  rw [← hfalse]
  cases hx : m.externalBinariesExist resolves with
  | true => simp [Maker.ensureExternalBinariesExist, hx]
  | false => simp [Maker.ensureExternalBinariesExist, hx]

/-- C3, witness: with binaries `toolA, toolB` configured and only `toolA`
resolving, the error message lists both, in order, separated by `, `. -/
theorem binary_validation_spec_witness :
    makerTools.ensureExternalBinariesExist resolvesOnlyToolA = .error (.missingDependency
      "Cannot make for flatpak, the following external binaries need to be installed: toolA, toolB") := by
  have h := (binary_validation_spec makerTools resolvesOnlyToolA).2.2.1 (by decide)
  rw [h]
  rfl

/-! ## Claim C7 — `normalizeWindowsVersion` -/

/-- C7, counterexample: the claim says the strip reaches the end of the
string for every input, but the dot of a JavaScript regex does not match a
line terminator, so on an input with a newline after the first `-` the code
keeps the tail from the newline on. -/
theorem normalizeWindowsVersion_newline_counterexample :
    normalizeWindowsVersion "1-a\nb" = "1\nb.0"
      ∧ claimNormalizeWindowsVersion "1-a\nb" = "1.0"
      ∧ normalizeWindowsVersion "1-a\nb" ≠ claimNormalizeWindowsVersion "1-a\nb" := by
  refine ⟨rfl, rfl, ?_⟩
  decide

/-- A list of characters free of line terminators has its whole tail after
the first `-` consumed by the regex dash-dot-star, so the replacement
coincides with taking the characters before the first `-`. -/
theorem replaceFirstDashRest_no_terminators (l : List Char)
    (h : ∀ c ∈ l, jsDotMatch c = true) :
    replaceFirstDashRest l = l.takeWhile (fun c => !(c = '-')) := by
  induction l with
  | nil => rfl
  | cons c rest ih =>
    by_cases hc : c = '-'
    · subst hc
      simp only [replaceFirstDashRest, if_pos rfl, List.takeWhile_cons]
      simp only [decide_True, Bool.not_true, if_neg Bool.false_ne_true]
      exact List.dropWhile_eq_nil_iff.mpr (fun x hx => h x (List.mem_cons_of_mem _ hx))
    · simp only [replaceFirstDashRest, if_neg hc, List.takeWhile_cons]
      rw [if_pos (by simp [hc])]
      exact congrArg (c :: ·) (ih (fun x hx => h x (List.mem_cons_of_mem _ hx)))

/-- C7, amended: for every input containing no line terminator,
`normalizeWindowsVersion` strips everything from the first `-` to the end of
the string and appends the literal `.0` (on inputs containing a line
terminator after the first `-`, the strip stops at that terminator, because
the dot of a JavaScript regex does not match line terminators); in
particular the two quoted examples hold. -/
theorem normalizeWindowsVersion_amended (version : String)
    (h : ∀ c ∈ version.data, jsDotMatch c = true) :
    normalizeWindowsVersion version = claimNormalizeWindowsVersion version
      ∧ normalizeWindowsVersion "1.2.3-beta.1" = "1.2.3.0"
      ∧ normalizeWindowsVersion "2.0.0" = "2.0.0.0" := by
  refine ⟨?_, rfl, rfl⟩
  unfold normalizeWindowsVersion claimNormalizeWindowsVersion
  rw [replaceFirstDashRest_no_terminators version.data h]

/-- C7, witness for the amended theorem at the quoted example. -/
theorem normalizeWindowsVersion_amended_witness :
    normalizeWindowsVersion "1.2.3-beta.1" = claimNormalizeWindowsVersion "1.2.3-beta.1"
      ∧ normalizeWindowsVersion "1.2.3-beta.1" = "1.2.3.0"
      ∧ normalizeWindowsVersion "2.0.0" = "2.0.0.0" :=
  normalizeWindowsVersion_amended "1.2.3-beta.1" (by decide)

end Forge

namespace Forge

/-! ## Claim C1 — contract enforcement for `make` and
`isSupportedOnCurrentPlatform` -/

/-- C1: calling `isSupportedOnCurrentPlatform` or `make` raises a
ContractViolation exactly when the concrete variant did not override that
method, and every such violation message contains the name of the maker and
the name of the unimplemented method; a variant overriding both methods
never gets a ContractViolation from these base-class checks. -/
theorem contract_violation_iff_not_overridden (m : Maker) (opts : MakerOptions) :
    ((∃ msg, m.callIsSupported = .error (.contractViolation msg)) ↔ m.isSupportedImpl = none)
    ∧ (∀ msg, m.callIsSupported = .error (.contractViolation msg) →
        m.name.data <:+: msg.data ∧ "isSupportedOnCurrentPlatform".data <:+: msg.data)
    ∧ ((∃ msg, m.callMake opts = .error (.contractViolation msg)) ↔ m.makeImpl = none)
    ∧ (∀ msg, m.callMake opts = .error (.contractViolation msg) →
        m.name.data <:+: msg.data ∧ "make".data <:+: msg.data) := by
  refine ⟨?_, ?_, ?_, ?_⟩
  · cases him : m.isSupportedImpl with
    | some f => simp [Maker.callIsSupported, him]
    | none => simp [Maker.callIsSupported, him]
  · intro msg he
    cases him : m.isSupportedImpl with
    | some f => simp [Maker.callIsSupported, him] at he
    | none =>
      simp only [Maker.callIsSupported, him, Except.error.injEq,
        MakerError.contractViolation.injEq] at he
      subst he
      constructor
      · exact ⟨"Maker ".data,
          " did not implement the isSupportedOnCurrentPlatform method".data, by simp⟩
      · have h1 : "isSupportedOnCurrentPlatform".data <:+:
            " did not implement the isSupportedOnCurrentPlatform method".data := by decide
        exact h1.trans ⟨"Maker ".data ++ m.name.data, [], by simp⟩
  · cases hm : m.makeImpl with
    | some f =>
      simp only [Maker.callMake, hm]
      constructor
      · rintro ⟨msg, hmsg⟩
        cases hfo : f opts with
        | ok v => simp [hfo, Except.mapError] at hmsg
        | error e => simp [hfo, Except.mapError] at hmsg
      · intro hcontra
        exact absurd hcontra (by simp)
    | none => simp [Maker.callMake, hm]
  · intro msg he
    cases hm : m.makeImpl with
    | some f =>
      simp only [Maker.callMake, hm] at he
      cases hfo : f opts with
      | ok v => simp [hfo, Except.mapError] at he
      | error e => simp [hfo, Except.mapError] at he
    | none =>
      simp only [Maker.callMake, hm, Except.error.injEq,
        MakerError.contractViolation.injEq] at he
      subst he
      constructor
      · exact ⟨"Maker ".data, " did not implement the make method".data, by simp⟩
      · have h1 : "make".data <:+: " did not implement the make method".data := by decide
        exact h1.trans ⟨"Maker ".data ++ m.name.data, [], by simp⟩

/-- C1, witness: a maker overriding neither method gets ContractViolation
messages naming it and the unimplemented method from both calls. -/
theorem contract_violation_iff_not_overridden_witness :
    (∃ msg, makerNoBins.callIsSupported = .error (.contractViolation msg)
      ∧ makerNoBins.name.data <:+: msg.data
      ∧ "isSupportedOnCurrentPlatform".data <:+: msg.data)
    ∧ (∃ msg, makerNoBins.callMake optsExample = .error (.contractViolation msg)
      ∧ makerNoBins.name.data <:+: msg.data
      ∧ "make".data <:+: msg.data) := by
  have h := contract_violation_iff_not_overridden makerNoBins optsExample
  obtain ⟨msg1, hm1⟩ := h.1.mpr rfl
  obtain ⟨msg2, hm2⟩ := h.2.2.1.mpr rfl
  exact ⟨⟨msg1, hm1, (h.2.1 msg1 hm1).1, (h.2.1 msg1 hm1).2⟩,
    ⟨msg2, hm2, (h.2.2.2 msg2 hm2).1, (h.2.2.2 msg2 hm2).2⟩⟩

end Forge

namespace Forge

/-! ## Filesystem lemmas for the staging helpers -/

/-- Unfolding of the existence check. -/
theorem FS.pathExists_iff (fs : FS) (p : FsPath) :
    fs.pathExists p = true ↔ p ∈ fs.dirs ∨ p ∈ fs.files := by
  simp [FS.pathExists]

/-- Directories after `mkdirs`: the prefixes of the created path plus the
old directories. -/
theorem FS.mem_mkdirs_dirs (fs : FS) (p q : FsPath) :
    q ∈ (fs.mkdirs p).dirs ↔ q <+: p ∨ q ∈ fs.dirs := by
  simp [FS.mkdirs, List.mem_inits]

/-- Files are untouched by `mkdirs`. -/
theorem FS.mkdirs_files (fs : FS) (p : FsPath) : (fs.mkdirs p).files = fs.files := rfl

/-- Directories after recursive removal of `p`: the old ones not at or
below `p`. -/
theorem FS.mem_remove_dirs (fs : FS) (p q : FsPath) :
    q ∈ (fs.remove p).dirs ↔ q ∈ fs.dirs ∧ ¬(p <+: q) := by
  simp [FS.remove, List.mem_filter, ← List.isPrefixOf_iff_prefix]

/-- Files after recursive removal of `p`: the old ones not at or below
`p`. -/
theorem FS.mem_remove_files (fs : FS) (p q : FsPath) :
    q ∈ (fs.remove p).files ↔ q ∈ fs.files ∧ ¬(p <+: q) := by
  simp [FS.remove, List.mem_filter, ← List.isPrefixOf_iff_prefix]

/-- Well-formedness, unpacked: every proper prefix of an existing path is
an existing directory. -/
theorem FS.wf_spec (fs : FS) (h : fs.wf = true) :
    ∀ p, p ∈ fs.dirs ∨ p ∈ fs.files → ∀ q, q <+: p → q ≠ p → q ∈ fs.dirs := by
  have h' := of_decide_eq_true h
  intro p hp q hq hne
  rcases h' p (List.mem_append.mpr hp) q ((List.mem_inits q p).mpr hq) with h1 | h2
  · exact absurd h1 hne
  · exact h2

/-! ## Claim C5 — `ensureDirectory` -/

/-- C5: on a well-formed filesystem, after `ensureDirectory(dir)` the
directory `dir` exists (as a directory, not a file) and is empty — no path
strictly below it exists — whether or not it existed before, and every
missing parent segment was created. -/
theorem ensureDirectory_resets (fs : FS) (dir : FsPath) (h : fs.wf = true) :
    dir ∈ (ensureDirectory fs dir).dirs
      ∧ dir ∉ (ensureDirectory fs dir).files
      ∧ (∀ q, dir <+: q → q ≠ dir →
          q ∉ (ensureDirectory fs dir).dirs ∧ q ∉ (ensureDirectory fs dir).files)
      ∧ (∀ q, q <+: dir → q ∈ (ensureDirectory fs dir).dirs) := by
  have hwf := FS.wf_spec fs h
  by_cases hex : fs.pathExists dir = true
  · have hED : ensureDirectory fs dir = (fs.remove dir).mkdirs dir := by
      simp [ensureDirectory, hex]
    rw [hED]
    refine ⟨?_, ?_, ?_, ?_⟩
    · exact (FS.mem_mkdirs_dirs _ _ _).mpr (Or.inl (List.prefix_refl dir))
    · rw [FS.mkdirs_files]
      intro hmem
      exact ((FS.mem_remove_files _ _ _).mp hmem).2 (List.prefix_refl dir)
    · intro q hpre hne
      constructor
      · intro hmem
        rcases (FS.mem_mkdirs_dirs _ _ _).mp hmem with h1 | h2
        · exact hne (h1.eq_of_length_le hpre.length_le)
        · exact ((FS.mem_remove_dirs _ _ _).mp h2).2 hpre
      · intro hmem
        rw [FS.mkdirs_files] at hmem
        exact ((FS.mem_remove_files _ _ _).mp hmem).2 hpre
    · intro q hq
      exact (FS.mem_mkdirs_dirs _ _ _).mpr (Or.inl hq)
  · have hnex : ¬(dir ∈ fs.dirs ∨ dir ∈ fs.files) := fun hc =>
      hex ((FS.pathExists_iff fs dir).mpr hc)
    have hED : ensureDirectory fs dir = fs.mkdirs dir := by
      simp [ensureDirectory, hex]
    rw [hED]
    refine ⟨?_, ?_, ?_, ?_⟩
    · exact (FS.mem_mkdirs_dirs _ _ _).mpr (Or.inl (List.prefix_refl dir))
    · rw [FS.mkdirs_files]
      intro hmem
      exact hnex (Or.inr hmem)
    · intro q hpre hne
      constructor
      · intro hmem
        rcases (FS.mem_mkdirs_dirs _ _ _).mp hmem with h1 | h2
        · exact hne (h1.eq_of_length_le hpre.length_le)
        · exact hnex (Or.inl (hwf q (Or.inl h2) dir hpre (Ne.symm hne)))
      · intro hmem
        rw [FS.mkdirs_files] at hmem
        exact hnex (Or.inl (hwf q (Or.inr hmem) dir hpre (Ne.symm hne)))
    · intro q hq
      exact (FS.mem_mkdirs_dirs _ _ _).mpr (Or.inl hq)

/-- C5, witness: resetting the pre-existing non-empty directory `a/b` of the
concrete filesystem. -/
theorem ensureDirectory_resets_witness :
    ["a", "b"] ∈ (ensureDirectory fsExample ["a", "b"]).dirs
      ∧ ["a", "b"] ∉ (ensureDirectory fsExample ["a", "b"]).files
      ∧ (∀ q, ["a", "b"] <+: q → q ≠ ["a", "b"] →
          q ∉ (ensureDirectory fsExample ["a", "b"]).dirs
          ∧ q ∉ (ensureDirectory fsExample ["a", "b"]).files)
      ∧ (∀ q, q <+: ["a", "b"] → q ∈ (ensureDirectory fsExample ["a", "b"]).dirs) :=
  ensureDirectory_resets fsExample ["a", "b"] (by decide)

/-! ## Claim C6 — `ensureFile` -/

/-- C6: after `ensureFile(file)` the path `file` exists neither as a file
nor as a directory (it was removed if present), while the full parent
directory chain exists; the file itself is never created. -/
theorem ensureFile_spec (fs : FS) (file : FsPath) (h : file ≠ []) :
    file ∉ (ensureFile fs file).dirs
      ∧ file ∉ (ensureFile fs file).files
      ∧ (∀ q, q <+: file.dropLast → q ∈ (ensureFile fs file).dirs) := by
  have hlen : ¬(file <+: file.dropLast) := by
    intro hc
    have h1 := hc.length_le
    rw [List.length_dropLast] at h1
    have h2 : 0 < file.length := List.length_pos.mpr h
    omega
  by_cases hex : fs.pathExists file = true
  · have hEF : ensureFile fs file = (fs.remove file).mkdirs file.dropLast := by
      simp [ensureFile, hex]
    rw [hEF]
    refine ⟨?_, ?_, ?_⟩
    · intro hmem
      rcases (FS.mem_mkdirs_dirs _ _ _).mp hmem with h1 | h2
      · exact hlen h1
      · exact ((FS.mem_remove_dirs _ _ _).mp h2).2 (List.prefix_refl file)
    · rw [FS.mkdirs_files]
      intro hmem
      exact ((FS.mem_remove_files _ _ _).mp hmem).2 (List.prefix_refl file)
    · intro q hq
      exact (FS.mem_mkdirs_dirs _ _ _).mpr (Or.inl hq)
  · have hnex : ¬(file ∈ fs.dirs ∨ file ∈ fs.files) := fun hc =>
      hex ((FS.pathExists_iff fs file).mpr hc)
    have hEF : ensureFile fs file = fs.mkdirs file.dropLast := by
      simp [ensureFile, hex]
    rw [hEF]
    refine ⟨?_, ?_, ?_⟩
    · intro hmem
      rcases (FS.mem_mkdirs_dirs _ _ _).mp hmem with h1 | h2
      · exact hlen h1
      · exact hnex (Or.inl h2)
    · rw [FS.mkdirs_files]
      intro hmem
      exact hnex (Or.inr hmem)
    · intro q hq
      exact (FS.mem_mkdirs_dirs _ _ _).mpr (Or.inl hq)

/-- C6, witness: removing the existing file `a/b/c` of the concrete
filesystem while its parent chain exists afterward. -/
theorem ensureFile_spec_witness :
    ["a", "b", "c"] ∉ (ensureFile fsExample ["a", "b", "c"]).dirs
      ∧ ["a", "b", "c"] ∉ (ensureFile fsExample ["a", "b", "c"]).files
      ∧ (∀ q, q <+: (["a", "b", "c"] : FsPath).dropLast →
          q ∈ (ensureFile fsExample ["a", "b", "c"]).dirs) :=
  ensureFile_spec fsExample ["a", "b", "c"] (by decide)

end Forge
